import Mathlib

/-!
Verification of the BoTeX command-dispatch pipeline.

Shallow embedding of the Go sources:
* `src/pkg/auth/models.go`      — data model (`User`, `Rank`, `RegisteredGroup`,
  `PermissionResult`, `Rank.HasCommand`)
* `src/pkg/auth/store.go`       — `SQLiteAuthStore` (`GetUser`, `GetRank`,
  `GetGroup`, `CreateGroup`)
* `src/pkg/auth/repository.go`  — `UnifiedAuthService.CheckPermission`
* `src/pkg/auth/init.go`        — `ratelimit.Limiter.Check` (sliding window)
* `src/pkg/ratelimit/notifier.go` — `Notifier.ShouldNotify` / `ClearNotification`
* `src/pkg/commands/handler.go`, `src/unnamed/part_004` — `CommandHandler`
  (parse, permission gate, rate gate, admission semaphore, execute)

Go `time.Time` / `time.Duration` are modelled as `Int` (nanoseconds since the
Go zero time, so the Go zero value corresponds to `0`); Go maps are modelled as
total functions with the Go zero-value default; fallible operations return
`Except`.
-/

namespace BoTeX

deriving instance DecidableEq for Except

/-- Errors surfaced by the auth layer (src/pkg/auth: `ErrServiceClosed`,
`ErrInvalidUserID`, `ErrInvalidGroupID`, `ErrUserNotFound`,
`ErrGroupNotRegistered`, `ErrRankNotFound`, `ErrUserAlreadyExists`,
`ErrGroupAlreadyRegistered`, `ErrDatabaseError`, plus the ad-hoc
"command cannot be empty", "registered_by cannot be empty" and
"registering user must be registered" errors). -/
inductive AuthErr where
  | serviceClosed
  | invalidUserID
  | invalidGroupID
  | userNotFound
  | groupNotRegistered
  | rankNotFound
  | userAlreadyExists
  | groupAlreadyRegistered
  | databaseError
  | emptyCommand
  | emptyRegisteredBy
  | registrarNotFound
  deriving DecidableEq

/-- `auth.User` (src/pkg/auth/models.go:9). `RegisteredAt`/`RegisteredBy` are
irrelevant to the verified claims and omitted; `active` is the soft-delete
flag. -/
structure User where
  userID : String
  rank : String
  active : Bool
  deriving DecidableEq

/-- `auth.Rank` (src/pkg/auth/models.go:18). `commands` is the parsed
`Commands` slice (`CommandsRaw` JSON storage is represented already parsed). -/
structure Rank where
  name : String
  level : Int
  commands : List String
  active : Bool
  deriving DecidableEq

/-- `auth.RegisteredGroup` (src/pkg/auth/models.go:64). -/
structure RegisteredGroup where
  groupID : String
  registeredBy : String
  active : Bool
  deriving DecidableEq

/-- `auth.PermissionResult` (src/pkg/auth/models.go:72): fields
`Allowed`, `Reason`, `UserRank`, `IsWhatsAppAdmin` in this order. -/
structure PermissionResult where
  allowed : Bool
  reason : String
  userRank : String
  isWhatsAppAdmin : Bool
  deriving DecidableEq

/-- `Rank.HasCommand` (src/pkg/auth/models.go:54): a linear scan comparing
each entry of the command set with the requested command for equality. -/
def Rank.HasCommand (r : Rank) (command : String) : Bool :=
  r.commands.any (fun cmd => cmd == command)

/-- The persistent state owned by `SQLiteAuthStore`: the three tables
`users`, `ranks`, `registered_groups` (src/pkg/auth/schema.go). -/
structure AuthDB where
  users : List User
  ranks : List Rank
  groups : List RegisteredGroup
  deriving DecidableEq

/-- `SQLiteAuthStore.GetUser` (src/pkg/auth/store.go:54):
`SELECT ... FROM users WHERE user_id = ? AND active = TRUE`, with the empty
user id rejected before the query and no-rows mapped to `ErrUserNotFound`.
The service-closed guard is threaded through the `closed` parameter of the
callers. -/
def SQLiteGetUser (db : AuthDB) (userID : String) : Except AuthErr User :=
  if userID == "" then .error .invalidUserID
  else
    match db.users.find? (fun u => u.userID == userID && u.active) with
    | some u => .ok u
    | none => .error .userNotFound

/-- `SQLiteAuthStore.GetRank` (src/pkg/auth/store.go:320):
`SELECT ... FROM ranks WHERE name = ? AND active = TRUE`; no-rows maps to
`ErrRankNotFound`. The stored commands are modelled already parsed, so the
`UnmarshalCommands` failure path cannot occur here; callers treat any error
from this lookup uniformly. -/
def SQLiteGetRank (db : AuthDB) (rankName : String) : Except AuthErr Rank :=
  if rankName == "" then .error .rankNotFound
  else
    match db.ranks.find? (fun r => r.name == rankName && r.active) with
    | some r => .ok r
    | none => .error .rankNotFound

/-- `SQLiteAuthStore.GetGroup` (src/pkg/auth/store.go:642):
`SELECT ... FROM registered_groups WHERE group_id = ? AND active = TRUE`;
no-rows maps to `ErrGroupNotRegistered`. -/
def SQLiteGetGroup (db : AuthDB) (groupID : String) : Except AuthErr RegisteredGroup :=
  if groupID == "" then .error .invalidGroupID
  else
    match db.groups.find? (fun g => g.groupID == groupID && g.active) with
    | some g => .ok g
    | none => .error .groupNotRegistered

/-- `UnifiedAuthService.IsGroupRegistered` (src/pkg/auth/repository.go:831):
a `GetGroup` lookup where only `ErrGroupNotRegistered` means "no". -/
def isGroupRegistered (db : AuthDB) (groupID : String) : Bool :=
  match SQLiteGetGroup db groupID with
  | .ok _ => true
  | .error _ => false

/-- A single-quote character, used to build reason strings without writing a
quote literal. -/
def sq : String := String.singleton (Char.ofNat 39)

/-- The denial reason built by `fmt.Sprintf("Command '%s' not allowed for
rank '%s'", command, user.Rank)` (src/pkg/auth/repository.go:544). -/
def notAllowedReason (command rank : String) : String :=
  "Command " ++ sq ++ command ++ sq ++ " not allowed for rank " ++ sq ++ rank ++ sq

/-- `UnifiedAuthService.CheckPermission` (src/pkg/auth/repository.go:430-584).
`admin` models the `store.IsWhatsAppAdmin` delegate (external transport
call); a failed admin check is logged and leaves the flag `false` without
failing the permission check. Logging and metrics are pure side channels and
are dropped. -/
def UnifiedCheckPermission (closed : Bool) (db : AuthDB)
    (admin : String → String → Except Unit Bool)
    (userID groupID command : String) : Except AuthErr PermissionResult :=
  if closed then .error .serviceClosed
  else if userID == "" then .error .invalidUserID
  else if command == "" then .error .emptyCommand
  else
    let isPrivateChat := groupID == ""
    if !isPrivateChat && !isGroupRegistered db groupID then
      .ok ⟨false, "Group not registered", "", false⟩
    else
      match SQLiteGetUser db userID with
      | .error .userNotFound =>
          .ok ⟨false,
               if isPrivateChat then "User not registered for private chat access"
               else "User not registered",
               "", false⟩
      | .error e => .error e
      | .ok user =>
          match SQLiteGetRank db user.rank with
          | .error _ =>
              .ok ⟨false, "Unable to determine user permissions", user.rank, false⟩
          | .ok rank =>
              if !rank.HasCommand command then
                .ok ⟨false, notAllowedReason command user.rank, user.rank, false⟩
              else
                let isAdmin :=
                  if !isPrivateChat then
                    match admin userID groupID with
                    | .ok b => b
                    | .error _ => false
                  else false
                .ok ⟨true, "Access granted", user.rank, isAdmin⟩

/-- A transport stub whose `IsGroupAdmin` always answers "not admin";
used for concrete evaluations. -/
def noAdmin : String → String → Except Unit Bool := fun _ _ => .ok false

/-- Concrete database: rank `owner` is active with command set `["*"]` exactly
as the wildcard documented in src/pkg/auth/README.md, user `alice` is an
active registered user of rank `owner`, no groups. -/
def ownerRank : Rank := ⟨"owner", 0, ["*"], true⟩

/-- See `ownerRank`. -/
def wildcardDB : AuthDB :=
  ⟨[⟨"alice", "owner", true⟩], [ownerRank], []⟩

/-- C1. The spec and src/pkg/auth/README.md promise that a wildcard entry in
a rank command set allows every command, but `Rank.HasCommand` only compares
entries for literal equality: the active user `alice`, whose active rank
`owner` has the command set `["*"]`, is denied the command `help` in a
private chat with reason `Command 'help' not allowed for rank 'owner'`,
even though the wildcard entry is present. -/
theorem checkPermission_wildcard_not_honored :
    UnifiedCheckPermission false wildcardDB noAdmin ("alice") ("") ("help") =
      .ok ⟨false, notAllowedReason ("help") ("owner"), "owner", false⟩ ∧
    ("*" ∈ ownerRank.commands ∧ ownerRank.HasCommand ("help") = false) := by
  constructor
  · rfl
  · constructor
    · decide
    · rfl

/-- C2. `UnifiedAuthService.CheckPermission` checks group registration before
any user lookup: for every database, admin delegate, non-empty user id,
non-empty command and non-empty group id whose group is not registered, the
result is a denial with reason `Group not registered` — independent of
whether the sending user is registered. -/
theorem checkPermission_unregistered_group_denies (db : AuthDB)
    (admin : String → String → Except Unit Bool) (userID groupID command : String)
    (hu : userID ≠ "") (hc : command ≠ "") (hg : groupID ≠ "")
    (hreg : isGroupRegistered db groupID = false) :
    UnifiedCheckPermission false db admin userID groupID command =
      .ok ⟨false, "Group not registered", "", false⟩ := by
  simp only [UnifiedCheckPermission, if_neg, Bool.false_eq_true, ite_false, hreg]
  rw [if_neg, if_neg, if_pos]
  · simp [hg, hreg]
  · simpa using hc
  · simpa using hu

/-- Witness for C2: the registered user `alice` sending `latex` in the
unregistered group `G1` is denied with reason `Group not registered`. -/
theorem checkPermission_unregistered_group_denies_witness :
    UnifiedCheckPermission false wildcardDB noAdmin ("alice") ("G1") ("latex") =
      .ok ⟨false, "Group not registered", "", false⟩ :=
  checkPermission_unregistered_group_denies wildcardDB noAdmin ("alice") ("G1") ("latex")
    (by decide) (by decide) (by decide) (by decide)

/-! ## Sliding-window rate limiter

`ratelimit.Limiter` (src/pkg/auth/init.go:304-387, the revision returning a
`Result`). Identities (`types.JID`) are strings; the per-identity request map
is a total function defaulting to `[]`, matching Go map reads of absent
keys. -/

/-- `ratelimit.Result` (src/pkg/auth/init.go:299). -/
structure RLResult where
  allowed : Bool
  resetAfter : Int
  deriving DecidableEq

/-- `ratelimit.Limiter` (src/pkg/auth/init.go:304): configured maximum and
window period plus the per-identity timestamp lists. -/
structure Limiter where
  maxRequests : Int
  period : Int
  requests : String → List Int

/-- The filtering loop of `Limiter.Check` (src/pkg/auth/init.go:333-340): a
single pass that collects the timestamps still inside the window and tracks
the earliest of them, where an unset `earliest` is the Go zero time (`0`,
via `Time.IsZero`). -/
def scanValid (period now : Int) (ts : List Int) : List Int × Int :=
  ts.foldl
    (fun acc t =>
      if now - t ≤ period then
        (acc.1 ++ [t], if acc.2 = 0 ∨ t < acc.2 then t else acc.2)
      else acc)
    ([], 0)

/-- `Limiter.Check` (src/pkg/auth/init.go:320-361): prune expired timestamps,
compute `ResetAfter` from the earliest surviving timestamp (defaulting to the
full period when none survive, clamping negatives to zero), allow iff fewer
than `maxRequests` survive, and only on an allowed call record `now` and
write the pruned list back. -/
def Limiter.Check (l : Limiter) (now : Int) (user : String) : RLResult × Limiter :=
  let requests := l.requests user
  let scanned := scanValid l.period now requests
  let validRequests := scanned.1
  let earliest := scanned.2
  let resetAfter :=
    if validRequests.length > 0 then
      let r := l.period - (now - earliest)
      if r < 0 then 0 else r
    else l.period
  let allowed := (validRequests.length : Int) < l.maxRequests
  if allowed then
    (⟨true, resetAfter⟩,
      ⟨l.maxRequests, l.period, fun u => if u = user then validRequests ++ [now] else l.requests u⟩)
  else
    (⟨false, resetAfter⟩, l)

/-- The window predicate of the limiter: a timestamp survives the prune when
its age does not exceed the period (`now.Sub(t) <= l.period`). -/
def inWindow (period now t : Int) : Bool := decide (now - t ≤ period)

theorem scanValid_fst_eq_filter (period now : Int) (ts : List Int) :
    (scanValid period now ts).1 = ts.filter (inWindow period now) := by
  suffices h : ∀ acc : List Int × Int,
      (ts.foldl
        (fun acc t =>
          if now - t ≤ period then
            (acc.1 ++ [t], if acc.2 = 0 ∨ t < acc.2 then t else acc.2)
          else acc) acc).1 = acc.1 ++ ts.filter (inWindow period now) by
    simpa [scanValid] using h ([], 0)
  induction ts with
  | nil => intro acc; simp
  | cons t rest ih =>
      intro acc
      simp only [List.foldl_cons]
      by_cases hp : now - t ≤ period
      · rw [if_pos hp, ih, List.filter_cons_of_pos (by simpa [inWindow] using hp)]
        simp
      · rw [if_neg hp, ih, List.filter_cons_of_neg (by simpa [inWindow] using hp)]

/-- The `earliest` tracking of the scan, isolated: the second component of the
fold only depends on the timestamps, not on the collected list. -/
def earliestAcc (period now : Int) (ts : List Int) (e : Int) : Int :=
  match ts with
  | [] => e
  | t :: rest =>
      earliestAcc period now rest
        (if now - t ≤ period then (if e = 0 ∨ t < e then t else e) else e)

theorem scanValid_snd_eq_earliestAcc (period now : Int) (ts : List Int) :
    (scanValid period now ts).2 = earliestAcc period now ts 0 := by
  suffices h : ∀ acc : List Int × Int,
      (ts.foldl
        (fun acc t =>
          if now - t ≤ period then
            (acc.1 ++ [t], if acc.2 = 0 ∨ t < acc.2 then t else acc.2)
          else acc) acc).2 = earliestAcc period now ts acc.2 by
    simpa [scanValid] using h ([], 0)
  induction ts with
  | nil => intro acc; simp [earliestAcc]
  | cons t rest ih =>
      intro acc
      simp only [List.foldl_cons, earliestAcc]
      by_cases hp : now - t ≤ period
      · rw [if_pos hp, ih, if_pos hp]
      · rw [if_neg hp, ih, if_neg hp]

/-- Once the accumulator holds a positive candidate, the scan returns a
minimum of the candidate and the surviving timestamps. -/
theorem earliestAcc_min_of_pos (period now : Int) (ts : List Int)
    (hpos : ∀ t ∈ ts, inWindow period now t = true → 0 < t) :
    ∀ e : Int, 0 < e →
      (earliestAcc period now ts e = e ∨
        earliestAcc period now ts e ∈ ts.filter (inWindow period now)) ∧
      earliestAcc period now ts e ≤ e ∧
      ∀ t ∈ ts.filter (inWindow period now), earliestAcc period now ts e ≤ t := by
  induction ts with
  | nil => intro e he; simp [earliestAcc]
  | cons t rest ih =>
      intro e he
      have hpos' : ∀ t ∈ rest, inWindow period now t = true → 0 < t :=
        fun x hx h => hpos x (List.mem_cons_of_mem t hx) h
      by_cases hp : now - t ≤ period
      · have ht : 0 < t := hpos t (List.mem_cons_self t rest) (by simp [inWindow, hp])
        have hne : ¬e = 0 := by omega
        have hfil : (t :: rest).filter (inWindow period now) =
            t :: rest.filter (inWindow period now) :=
          List.filter_cons_of_pos (by simpa [inWindow] using hp)
        by_cases hlt : t < e
        · have hstep : earliestAcc period now (t :: rest) e = earliestAcc period now rest t := by
            simp only [earliestAcc]
            rw [if_pos hp, if_pos (Or.inr hlt)]
          obtain ⟨h1, h2, h3⟩ := ih hpos' t ht
          refine ⟨?_, ?_, ?_⟩
          · right
            rw [hstep, hfil]
            rcases h1 with h1 | h1
            · rw [h1]; exact List.mem_cons_self t _
            · exact List.mem_cons_of_mem t h1
          · rw [hstep]; omega
          · intro x hx
            rw [hfil] at hx
            rcases List.mem_cons.mp hx with hx | hx
            · rw [hstep, hx]; exact h2
            · rw [hstep]; exact h3 x hx
        · have hstep : earliestAcc period now (t :: rest) e = earliestAcc period now rest e := by
            simp only [earliestAcc]
            rw [if_pos hp, if_neg (not_or.mpr ⟨hne, hlt⟩)]
          obtain ⟨h1, h2, h3⟩ := ih hpos' e he
          refine ⟨?_, ?_, ?_⟩
          · rw [hstep, hfil]
            rcases h1 with h1 | h1
            · exact Or.inl h1
            · exact Or.inr (List.mem_cons_of_mem t h1)
          · rw [hstep]; exact h2
          · intro x hx
            rw [hfil] at hx
            rcases List.mem_cons.mp hx with hx | hx
            · rw [hstep, hx]; omega
            · rw [hstep]; exact h3 x hx
      · have hstep : earliestAcc period now (t :: rest) e = earliestAcc period now rest e := by
          simp only [earliestAcc]
          rw [if_neg hp]
        obtain ⟨h1, h2, h3⟩ := ih hpos' e he
        have hfil : (t :: rest).filter (inWindow period now) =
            rest.filter (inWindow period now) :=
          List.filter_cons_of_neg (by simpa [inWindow] using hp)
        rw [hstep, hfil]
        exact ⟨h1, h2, h3⟩

/-- From an unset (`0`) accumulator: if any timestamp survives, the scan
returns a minimum of the surviving timestamps (given that genuine timestamps
are positive, i.e. never the Go zero time). -/
theorem earliestAcc_min (period now : Int) (ts : List Int)
    (hpos : ∀ t ∈ ts, inWindow period now t = true → 0 < t) :
    earliestAcc period now ts 0 = 0 ∧ ts.filter (inWindow period now) = [] ∨
      earliestAcc period now ts 0 ∈ ts.filter (inWindow period now) ∧
        ∀ t ∈ ts.filter (inWindow period now), earliestAcc period now ts 0 ≤ t := by
  induction ts with
  | nil => left; simp [earliestAcc]
  | cons t rest ih =>
      have hpos' : ∀ t ∈ rest, inWindow period now t = true → 0 < t :=
        fun x hx h => hpos x (List.mem_cons_of_mem t hx) h
      by_cases hp : now - t ≤ period
      · have ht : 0 < t := hpos t (List.mem_cons_self t rest) (by simp [inWindow, hp])
        have hstep : earliestAcc period now (t :: rest) 0 = earliestAcc period now rest t := by
          simp only [earliestAcc]
          rw [if_pos hp]
          simp
        obtain ⟨h1, h2, h3⟩ := earliestAcc_min_of_pos period now rest hpos' t ht
        right
        have hfil : (t :: rest).filter (inWindow period now) =
            t :: rest.filter (inWindow period now) :=
          List.filter_cons_of_pos (by simpa [inWindow] using hp)
        constructor
        · rw [hstep, hfil]
          rcases h1 with h1 | h1
          · rw [h1]; exact List.mem_cons_self t _
          · exact List.mem_cons_of_mem t h1
        · intro x hx
          rw [hfil] at hx
          rcases List.mem_cons.mp hx with hx | hx
          · rw [hstep, hx]; exact h2
          · rw [hstep]; exact h3 x hx
      · have hstep : earliestAcc period now (t :: rest) 0 = earliestAcc period now rest 0 := by
          simp only [earliestAcc]
          rw [if_neg hp]
        have hfil : (t :: rest).filter (inWindow period now) =
            rest.filter (inWindow period now) :=
          List.filter_cons_of_neg (by simpa [inWindow] using hp)
        rw [hstep, hfil]
        exact ih hpos'

theorem Limiter.Check_allowed_iff (l : Limiter) (now : Int) (user : String) :
    (l.Check now user).1.allowed = true ↔
      ((((l.requests user).filter (inWindow l.period now)).length : Int) < l.maxRequests) := by
  simp only [Limiter.Check, scanValid_fst_eq_filter]
  by_cases hallow :
      ((((l.requests user).filter (inWindow l.period now)).length : Int) < l.maxRequests)
  · rw [if_pos hallow]; simpa using hallow
  · rw [if_neg hallow]; simpa using hallow

theorem Limiter.Check_state_allowed (l : Limiter) (now : Int) (user : String)
    (h : (((l.requests user).filter (inWindow l.period now)).length : Int) < l.maxRequests) :
    (l.Check now user).2.requests = fun u =>
      if u = user then (l.requests user).filter (inWindow l.period now) ++ [now]
      else l.requests u := by
  simp only [Limiter.Check, scanValid_fst_eq_filter]
  rw [if_pos h]

theorem Limiter.Check_state_denied (l : Limiter) (now : Int) (user : String)
    (h : ¬ (((l.requests user).filter (inWindow l.period now)).length : Int) < l.maxRequests) :
    (l.Check now user).2 = l := by
  simp only [Limiter.Check, scanValid_fst_eq_filter]
  rw [if_neg h]

/-- C6. One `Limiter.Check` call, characterised: the call is allowed exactly
when fewer than `maxRequests` timestamps survive the prune; an allowed call
stores the pruned list extended by the current time; a denied call reports
`ResetAfter` as the window period minus the age of the oldest surviving
timestamp, clamped below at zero. The positivity hypothesis says the stored
timestamps are genuine clock readings (never the Go zero time). -/
theorem limiter_check_prune_record_reset (l : Limiter) (now : Int) (user : String)
    (hpos : ∀ t ∈ l.requests user, 0 < t) :
    ((l.Check now user).1.allowed = true ↔
      ((((l.requests user).filter (inWindow l.period now)).length : Int) < l.maxRequests)) ∧
    ((l.Check now user).1.allowed = true →
      (l.Check now user).2.requests user =
        (l.requests user).filter (inWindow l.period now) ++ [now]) ∧
    ((l.Check now user).1.allowed = false →
      ∀ m ∈ (l.requests user).filter (inWindow l.period now),
        (∀ t ∈ (l.requests user).filter (inWindow l.period now), m ≤ t) →
          (l.Check now user).1.resetAfter = max (l.period - (now - m)) 0) := by
  refine ⟨Limiter.Check_allowed_iff l now user, ?_, ?_⟩
  · intro hall
    have h := (Limiter.Check_allowed_iff l now user).mp hall
    rw [Limiter.Check_state_allowed l now user h]
    simp
  · intro hden m hm hmin
    have hnall : ¬ (((l.requests user).filter (inWindow l.period now)).length : Int) <
        l.maxRequests := by
      intro hc
      rw [(Limiter.Check_allowed_iff l now user).mpr hc] at hden
      exact absurd hden (by simp)
    have hpos' : ∀ t ∈ l.requests user, inWindow l.period now t = true → 0 < t :=
      fun t ht _ => hpos t ht
    have hearliest :
        (scanValid l.period now (l.requests user)).2 = m := by
      rw [scanValid_snd_eq_earliestAcc]
      rcases earliestAcc_min l.period now (l.requests user) hpos' with ⟨_, hnil⟩ | ⟨hmem, hlb⟩
      · rw [hnil] at hm; exact absurd hm (List.not_mem_nil m)
      · exact le_antisymm (hlb m hm) (hmin _ hmem)
    have hmw : now - m ≤ l.period := by
      have := List.of_mem_filter hm
      simpa [inWindow] using this
    have hlen : ((l.requests user).filter (inWindow l.period now)).length > 0 :=
      List.length_pos.mpr (List.ne_nil_of_mem hm)
    simp only [Limiter.Check, scanValid_fst_eq_filter]
    rw [if_neg hnall, hearliest]
    simp only [if_pos hlen]
    have h0 : ¬ l.period - (now - m) < 0 := by omega
    rw [if_neg h0]
    omega

/-- Witness for C6: with max 2 and period 10, the stored window `[1, 5, 3]`
for `alice` at time 6 survives the prune entirely, so the call is denied and
`ResetAfter` is `10 - (6 - 1) = 5`; recording at time 6 for `bob` (window
`[]`) is allowed and stores `[6]`. -/
theorem limiter_check_prune_record_reset_witness :
    ((Limiter.mk 2 10 (fun u => if u = "alice" then [1, 5, 3] else [])).Check 6
        "alice").1.resetAfter = max (10 - (6 - 1)) 0 := by
  refine (limiter_check_prune_record_reset
      (Limiter.mk 2 10 (fun u => if u = "alice" then [1, 5, 3] else [])) 6 "alice"
      ?_).2.2 (by decide) 1 (by decide) ?_
  · intro t ht
    simp only [if_pos rfl] at ht
    fin_cases ht <;> decide
  · intro t ht
    fin_cases ht <;> decide

/-- C5. Denial at the cap, recovery after the window: if at least
`maxRequests` stored timestamps are still inside the window, `Check` is
denied; and once the window period has elapsed past the oldest stored
timestamp (for an identity whose stored list is within the cap, as every
reachable list is), a subsequent `Check` is allowed again. -/
theorem limiter_deny_at_cap_recover_after_window (l : Limiter) (now : Int) (user : String) :
    (l.maxRequests ≤ (((l.requests user).filter (inWindow l.period now)).length : Int) →
      (l.Check now user).1.allowed = false) ∧
    (((l.requests user).length : Int) ≤ l.maxRequests →
      ∀ m ∈ l.requests user, (∀ t ∈ l.requests user, m ≤ t) →
        l.period < now - m →
          (l.Check now user).1.allowed = true) := by
  constructor
  · intro hcap
    have : ¬ (((l.requests user).filter (inWindow l.period now)).length : Int) <
        l.maxRequests := by omega
    rcases hb : (l.Check now user).1.allowed with _ | _
    · rfl
    · exact absurd ((Limiter.Check_allowed_iff l now user).mp hb) this
  · intro hlen m hm _ hout
    refine (Limiter.Check_allowed_iff l now user).mpr ?_
    have hdrop : ((l.requests user).filter (inWindow l.period now)).length <
        (l.requests user).length :=
      List.length_filter_lt_length_iff_exists.mpr
        ⟨m, hm, by simp [inWindow]; omega⟩
    omega

/-- Witness for C5: max 2, period 10. At time 6 both stored timestamps
`[1, 3]` of `alice` are inside the window, so the call is denied; at time 20
the window has elapsed past the oldest timestamp `1`, and the call is
allowed again. -/
theorem limiter_deny_at_cap_recover_after_window_witness :
    ((Limiter.mk 2 10 (fun u => if u = "alice" then [1, 3] else [])).Check 6
        "alice").1.allowed = false ∧
    ((Limiter.mk 2 10 (fun u => if u = "alice" then [1, 3] else [])).Check 20
        "alice").1.allowed = true :=
  ⟨(limiter_deny_at_cap_recover_after_window
      (Limiter.mk 2 10 (fun u => if u = "alice" then [1, 3] else [])) 6 "alice").1
      (by decide),
   (limiter_deny_at_cap_recover_after_window
      (Limiter.mk 2 10 (fun u => if u = "alice" then [1, 3] else [])) 20 "alice").2
      (by decide) 1 (by decide) (by decide) (by decide)⟩

/-- C9. Frame property of `Limiter.Check`: a denied call leaves the limiter
state exactly as it was (no timestamp recorded, no pruned list written back
— so repeated denied attempts never extend the wait), and every call leaves
the stored windows of all other identities untouched. -/
theorem limiter_denied_leaves_state (l : Limiter) (now : Int) (user : String) :
    ((l.Check now user).1.allowed = false → (l.Check now user).2 = l) ∧
    (∀ u, u ≠ user → (l.Check now user).2.requests u = l.requests u) := by
  by_cases hallow :
      ((((l.requests user).filter (inWindow l.period now)).length : Int) < l.maxRequests)
  · constructor
    · intro hden
      rw [(Limiter.Check_allowed_iff l now user).mpr hallow] at hden
      exact absurd hden (by simp)
    · intro u hu
      rw [Limiter.Check_state_allowed l now user hallow]
      simp [hu]
  · have hst := Limiter.Check_state_denied l now user hallow
    exact ⟨fun _ => hst, fun u _ => by rw [hst]⟩

/-- Witness for C9: the denied call of `alice`
(window `[1, 3]`, max 2, time 6) leaves the limiter unchanged, and leaves
the (empty) window of `bob` untouched. -/
theorem limiter_denied_leaves_state_witness :
    ((Limiter.mk 2 10 (fun u => if u = "alice" then [1, 3] else [])).Check 6
        "alice").2 = Limiter.mk 2 10 (fun u => if u = "alice" then [1, 3] else []) ∧
    ((Limiter.mk 2 10 (fun u => if u = "alice" then [1, 3] else [])).Check 6
        "alice").2.requests "bob" =
      (fun u => if u = "alice" then [1, 3] else ([] : List Int)) "bob" :=
  ⟨(limiter_denied_leaves_state
      (Limiter.mk 2 10 (fun u => if u = "alice" then [1, 3] else [])) 6 "alice").1
      (by decide),
   (limiter_denied_leaves_state
      (Limiter.mk 2 10 (fun u => if u = "alice" then [1, 3] else [])) 6 "alice").2
      "bob" (by decide)⟩

/-! ## Rate-limit notification throttle

`ratelimit.Notifier` (src/pkg/ratelimit/notifier.go). -/

/-- `ratelimit.Notifier` (src/pkg/ratelimit/notifier.go:10): the cooldown
period and the per-identity last-notified timestamp map (`none` = no map
entry). -/
structure Notifier where
  notifyPeriod : Int
  notifiedTime : String → Option Int

/-- `Notifier.ShouldNotify` (src/pkg/ratelimit/notifier.go:25): notify when
no record exists or the cooldown has elapsed
(`!exists || time.Since(notifyTime) > n.notifyPeriod`); a positive answer
stamps the current time for the identity. -/
def Notifier.ShouldNotify (n : Notifier) (now : Int) (user : String) : Bool × Notifier :=
  let shouldNotify :=
    match n.notifiedTime user with
    | none => true
    | some notifyTime => decide (now - notifyTime > n.notifyPeriod)
  if shouldNotify then
    (true, ⟨n.notifyPeriod, fun u => if u = user then some now else n.notifiedTime u⟩)
  else
    (false, n)

/-- `Notifier.ClearNotification` (src/pkg/ratelimit/notifier.go:44): delete
the identity from the map. -/
def Notifier.ClearNotification (n : Notifier) (user : String) : Notifier :=
  ⟨n.notifyPeriod, fun u => if u = user then none else n.notifiedTime u⟩

/-- C7. `ShouldNotify` answers true for a fresh identity (and stamps the
notification time), answers false on an immediately repeated call within the
cooldown, and answers true again on the first call after
`ClearNotification`. -/
theorem notifier_first_repeat_clear (n : Notifier) (now now2 now3 : Int) (user : String)
    (hfresh : n.notifiedTime user = none) (hrepeat : now2 - now ≤ n.notifyPeriod) :
    (n.ShouldNotify now user).1 = true ∧
    (n.ShouldNotify now user).2.notifiedTime user = some now ∧
    ((n.ShouldNotify now user).2.ShouldNotify now2 user).1 = false ∧
    (((n.ShouldNotify now user).2.ClearNotification user).ShouldNotify now3 user).1 = true := by
  have h1 : n.ShouldNotify now user =
      (true, ⟨n.notifyPeriod, fun u => if u = user then some now else n.notifiedTime u⟩) := by
    simp [Notifier.ShouldNotify, hfresh]
  refine ⟨by rw [h1], by rw [h1]; simp, ?_, ?_⟩
  · rw [h1]
    simp only [Notifier.ShouldNotify, if_pos rfl]
    have : ¬ now2 - now > n.notifyPeriod := by omega
    simp [this]
  · rw [h1]
    simp [Notifier.ShouldNotify, Notifier.ClearNotification]

/-- Witness for C7: cooldown 100, fresh map; first call at 5 notifies and
stamps, the repeat at 10 is suppressed, and after clearing a call at 11
notifies again. -/
theorem notifier_first_repeat_clear_witness :
    ((Notifier.mk 100 (fun _ => none)).ShouldNotify 5 "alice").1 = true ∧
    ((Notifier.mk 100 (fun _ => none)).ShouldNotify 5 "alice").2.notifiedTime "alice" =
      some 5 ∧
    (((Notifier.mk 100 (fun _ => none)).ShouldNotify 5 "alice").2.ShouldNotify 10
        "alice").1 = false ∧
    ((((Notifier.mk 100 (fun _ => none)).ShouldNotify 5 "alice").2.ClearNotification
        "alice").ShouldNotify 11 "alice").1 = true :=
  notifier_first_repeat_clear (Notifier.mk 100 (fun _ => none)) 5 10 11 "alice"
    rfl (by decide)

/-! ## Concurrency admission control

`CommandHandler.acquireSemaphore` (src/pkg/commands/handler.go:153-169 and
484-493, src/unnamed/part_004:269-278): a non-blocking `select` on the
buffered channel `h.semaphore` of capacity `config.MaxConcurrent`
(src/pkg/commands/handler.go:62). The channel is modelled by the number of
currently held slots; a send succeeds exactly when the buffer is not full. -/

/-- The three outcomes of `acquireSemaphore`: slot acquired, context
cancelled (`ctx.Done()` branch), or the immediate `ErrTooManyConcurrent`
default branch. -/
inductive AcquireOutcome where
  | acquired
  | ctxCancelled
  | tooManyConcurrent
  deriving DecidableEq

/-- `acquireSemaphore`: the buffered-channel send succeeds iff fewer than
`maxConcurrent` slots are held; otherwise the `select` falls through to the
`ctx.Done()` case (when the context is already cancelled) or to the
immediate-failure `default` case. -/
def acquireSemaphore (held maxConcurrent : Nat) (ctxDone : Bool) : AcquireOutcome × Nat :=
  if held < maxConcurrent then (.acquired, held + 1)
  else if ctxDone then (.ctxCancelled, held)
  else (.tooManyConcurrent, held)

/-- The deferred `release` closure (`func() { <-h.semaphore }`). -/
def releaseSemaphore (held : Nat) : Nat := held - 1

/-- One admission-controller event: an acquire attempt (with the context
cancellation state at that moment) or a release. -/
inductive SemOp where
  | acquire (ctxDone : Bool)
  | release

/-- Effect of one event on the number of held slots. -/
def semStep (maxConcurrent held : Nat) : SemOp → Nat
  | .acquire d => (acquireSemaphore held maxConcurrent d).2
  | .release => releaseSemaphore held

/-- Number of held slots after a sequence of events starting from the fresh
handler (empty channel). -/
def semRun (maxConcurrent : Nat) (ops : List SemOp) : Nat :=
  ops.foldl (semStep maxConcurrent) 0

theorem semRun_aux_le (maxConcurrent : Nat) (ops : List SemOp) :
    ∀ held, held ≤ maxConcurrent →
      ops.foldl (semStep maxConcurrent) held ≤ maxConcurrent := by
  induction ops with
  | nil => intro held h; simpa using h
  | cons op rest ih =>
      intro held h
      rw [List.foldl_cons]
      refine ih _ ?_
      cases op with
      | acquire d =>
          simp only [semStep, acquireSemaphore]
          by_cases hlt : held < maxConcurrent
          · rw [if_pos hlt]; omega
          · rw [if_neg hlt]
            by_cases hd : d = true <;> simp [hd] <;> omega
      | release => simp only [semStep, releaseSemaphore]; omega

/-- C4. The admission controller holds at most `maxConcurrent` slots in every
state reachable from the fresh handler, and an acquire attempted while all
slots are held (with a live context) fails immediately with the
too-many-concurrent outcome, leaving the count unchanged. -/
theorem admission_bound_and_fail_fast (maxConcurrent : Nat) (ops : List SemOp) (held : Nat) :
    semRun maxConcurrent ops ≤ maxConcurrent ∧
    (maxConcurrent ≤ held →
      acquireSemaphore held maxConcurrent false = (.tooManyConcurrent, held)) := by
  constructor
  · exact semRun_aux_le maxConcurrent ops 0 (Nat.zero_le _)
  · intro hfull
    have : ¬ held < maxConcurrent := by omega
    simp [acquireSemaphore, this]

/-- Witness for C4: with max 2, after two successful acquires both slots are
held and the third acquire fails immediately with the too-many-concurrent
outcome. -/
theorem admission_bound_and_fail_fast_witness :
    semRun 2 [SemOp.acquire false, SemOp.acquire false] ≤ 2 ∧
    acquireSemaphore 2 2 false = (AcquireOutcome.tooManyConcurrent, 2) :=
  ⟨(admission_bound_and_fail_fast 2 [SemOp.acquire false, SemOp.acquire false] 2).1,
   (admission_bound_and_fail_fast 2 [SemOp.acquire false, SemOp.acquire false] 2).2
     (by decide)⟩

/-! ## Group creation

`SQLiteAuthStore.CreateGroup` (src/pkg/auth/store.go:691-793). Besides the
result and the new database state, the embedding records the observable
database actions in order; each query/statement event carries a flag telling
whether it executes inside the transaction opened by `BeginTx`. -/

/-- One observable database action of `CreateGroup`. -/
inductive DBEvent where
  | getGroupQuery (inTx : Bool)
  | getUserQuery (inTx : Bool)
  | beginTx
  | insertGroup (inTx : Bool)
  | commitTx
  deriving DecidableEq

/-- `SQLiteAuthStore.CreateGroup` (src/pkg/auth/store.go:691): validate ids,
check group existence via `GetGroup`, verify the registering user via
`GetUser` (wrapping its failure as "registering user must be registered"),
then open a transaction, run the single `INSERT INTO registered_groups` and
commit. `registered_groups.group_id` is the primary key
(src/pkg/auth/schema.go:30), so the insert hits a constraint error when any
row with that id exists, active or soft-deleted. -/
def SQLiteCreateGroup (closed : Bool) (db : AuthDB) (group : RegisteredGroup) :
    Except AuthErr Unit × AuthDB × List DBEvent :=
  if closed then (.error .serviceClosed, db, [])
  else if group.groupID == "" then (.error .invalidGroupID, db, [])
  else if group.registeredBy == "" then (.error .emptyRegisteredBy, db, [])
  else
    match SQLiteGetGroup db group.groupID with
    | .ok _ => (.error .groupAlreadyRegistered, db, [.getGroupQuery false])
    | .error _ =>
        match SQLiteGetUser db group.registeredBy with
        | .error _ =>
            (.error .registrarNotFound, db, [.getGroupQuery false, .getUserQuery false])
        | .ok _ =>
            if db.groups.any (fun g => g.groupID == group.groupID) then
              (.error .databaseError, db,
                [.getGroupQuery false, .getUserQuery false, .beginTx, .insertGroup true])
            else
              (.ok (), ⟨db.users, db.ranks, db.groups ++ [group]⟩,
                [.getGroupQuery false, .getUserQuery false, .beginTx,
                 .insertGroup true, .commitTx])

/-- Database with one active registered user `admin1` (rank `owner`) and no
groups. -/
def regDB : AuthDB := ⟨[⟨"admin1", "owner", true⟩], [ownerRank], []⟩

/-- The group `G1` registered by `admin1`. -/
def newGroup : RegisteredGroup := ⟨"G1", "admin1", true⟩

/-- Database holding the registered group `G1` and no users at all. -/
def groupOnlyDB : AuthDB := ⟨[], [], [⟨"G1", "admin1", true⟩]⟩

/-- C8, counterexample. The claim fails on two counts. (1) Atomicity: on the
successful creation of `G1` by the registered user `admin1`, the emitted
action trace runs the group-existence check *before* `BeginTx` — only the
insert executes inside the transaction, so the existence check and the
insertion are not performed together within a single atomic transaction.
(2) Precedence: when the group already exists *and* the registrar is not a
registered user, `CreateGroup` returns AlreadyExists, so the claimed
"RegistrarNotFound whenever the registrar is not an active registered user"
does not hold. -/
theorem createGroup_claim_counterexample :
    ((SQLiteCreateGroup false regDB newGroup).1 = .ok () ∧
      (SQLiteCreateGroup false regDB newGroup).2.2 =
        [.getGroupQuery false, .getUserQuery false, .beginTx,
         .insertGroup true, .commitTx] ∧
      DBEvent.getGroupQuery true ∉ (SQLiteCreateGroup false regDB newGroup).2.2) ∧
    (SQLiteCreateGroup false groupOnlyDB ⟨"G1", "ghost", true⟩).1 =
      .error .groupAlreadyRegistered := by
  refine ⟨⟨?_, ?_, ?_⟩, ?_⟩ <;> decide

/-- C8, amended. For non-empty ids on an open store: an already-registered
group yields AlreadyExists (before the registrar is ever looked up); failing
that, an unregistered registrar yields the registrar-not-found error; and a
successful creation appends the group, where the emitted trace shows the
insert inside the transaction but the existence and registrar checks before
`BeginTx`. -/
theorem createGroup_checks_precede_transaction (db : AuthDB) (group : RegisteredGroup)
    (hg : group.groupID ≠ "") (hr : group.registeredBy ≠ "") :
    (isGroupRegistered db group.groupID = true →
      SQLiteCreateGroup false db group =
        (.error .groupAlreadyRegistered, db, [.getGroupQuery false])) ∧
    (isGroupRegistered db group.groupID = false →
      SQLiteGetUser db group.registeredBy = .error .userNotFound →
      SQLiteCreateGroup false db group =
        (.error .registrarNotFound, db, [.getGroupQuery false, .getUserQuery false])) ∧
    (isGroupRegistered db group.groupID = false →
      (∃ u, SQLiteGetUser db group.registeredBy = .ok u) →
      db.groups.any (fun g => g.groupID == group.groupID) = false →
      SQLiteCreateGroup false db group =
        (.ok (), ⟨db.users, db.ranks, db.groups ++ [group]⟩,
          [.getGroupQuery false, .getUserQuery false, .beginTx,
           .insertGroup true, .commitTx])) := by
  have hgb : (group.groupID == "") = false := by
    simpa using hg
  have hrb : (group.registeredBy == "") = false := by
    simpa using hr
  refine ⟨?_, ?_, ?_⟩
  · intro hreg
    rcases hget : SQLiteGetGroup db group.groupID with e | g0
    · rw [isGroupRegistered, hget] at hreg; exact absurd hreg (by simp)
    · simp [SQLiteCreateGroup, hgb, hrb, hget]
  · intro hreg huser
    rcases hget : SQLiteGetGroup db group.groupID with e | g0
    · simp [SQLiteCreateGroup, hgb, hrb, hget, huser]
    · rw [isGroupRegistered, hget] at hreg; exact absurd hreg (by simp)
  · intro hreg huser hnorow
    rcases hget : SQLiteGetGroup db group.groupID with e | g0
    · obtain ⟨u, hu⟩ := huser
      simp [SQLiteCreateGroup, hgb, hrb, hget, hu, hnorow]
    · rw [isGroupRegistered, hget] at hreg; exact absurd hreg (by simp)

/-- Witness for the amended C8: creating `G1` in `regDB` (registrar `admin1`
registered, no groups) succeeds, appends the group, and emits the trace with
the existence check outside and the insert inside the transaction. -/
theorem createGroup_checks_precede_transaction_witness :
    SQLiteCreateGroup false regDB newGroup =
      (.ok (), ⟨regDB.users, regDB.ranks, regDB.groups ++ [newGroup]⟩,
        [.getGroupQuery false, .getUserQuery false, .beginTx,
         .insertGroup true, .commitTx]) :=
  (createGroup_checks_precede_transaction regDB newGroup (by decide) (by decide)).2.2
    (by decide) ⟨⟨"admin1", "owner", true⟩, by decide⟩ (by decide)

/-! ## Command extraction and the dispatcher

`CommandHandler` (src/unnamed/part_004, the revision whose `HandleEvent`
gates on the permission check before rate limiting and admission;
`extractCommand` is the same parse as `parseCommand` in
src/pkg/commands/handler.go:109 and :430). -/

/-- Go `unicode.IsSpace`: the Unicode White_Space code points, used by
`strings.Fields` to delimit fields. -/
def isGoSpace (c : Char) : Bool :=
  decide (c.toNat ∈ ([9, 10, 11, 12, 13, 32, 0x85, 0xA0, 0x1680,
    0x2000, 0x2001, 0x2002, 0x2003, 0x2004, 0x2005, 0x2006, 0x2007, 0x2008,
    0x2009, 0x200A, 0x2028, 0x2029, 0x202F, 0x205F, 0x3000] : List Nat))

/-- Worker for `strings.Fields`: split around runs of white space,
producing no empty fields. `acc` holds the current field reversed. -/
def fieldsAux : List Char → List Char → List String
  | [], acc => if acc.isEmpty then [] else [String.mk acc.reverse]
  | c :: rest, acc =>
      if isGoSpace c then
        if acc.isEmpty then fieldsAux rest []
        else String.mk acc.reverse :: fieldsAux rest []
      else fieldsAux rest (c :: acc)

/-- Go `strings.Fields`. -/
def goFields (s : String) : List String := fieldsAux s.data []

/-- `CommandHandler.extractCommand` (src/unnamed/part_004:157-175): the text
must start with the `!` prefix; the first whitespace-delimited token after
the prefix is the command, the rest joined by single spaces becomes the new
message text (empty when there are no further tokens). Returns `none` for
non-commands, including a bare or whitespace-only prefix. -/
def extractCommand (text : String) : Option (String × String) :=
  match text.data with
  | [] => none
  | first :: afterPrefix =>
      if first = '!' then
        match fieldsAux afterPrefix [] with
        | [] => none
        | c :: rest =>
            some (c, if rest.length > 0 then String.intercalate (" ") rest else "")
      else none

/-- `message.Message` (src/pkg/message/message.go:9), the fields the
dispatcher reads. -/
structure Msg where
  text : String
  sender : String
  isGroup : Bool
  groupID : String
  recipient : String
  messageID : String
  deriving DecidableEq

/-- The mutable state the dispatcher touches during one `HandleEvent`: the
rate limiter and notifier owned by the `RateLimitService`, and the number of
held semaphore slots. -/
structure HandlerState where
  limiter : Limiter
  notifier : Notifier
  held : Nat

/-- Observable actions of one dispatch, in execution order. -/
inductive DispatchEvent where
  | permissionChecked (userID groupID command : String)
  | rateChecked (sender : String)
  | semaphoreAcquired
  | semaphoreReleased
  | handlerInvoked (command : String)
  | reactionSent (emoji : String)
  | textSent (body : String)
  deriving DecidableEq

/-- `concurrentLimitMsg` (src/unnamed/part_004:22). -/
def concurrentLimitMsg : String := "Too many concurrent requests. Please try again later."

/-- The rate-limit wait message (src/unnamed/part_004:260):
`"Too many requests. Please wait %d seconds."` with
`int(rateErr.ResetAfter.Seconds())`; `ResetAfter` is in nanoseconds. -/
def rateWaitMsg (resetAfter : Int) : String :=
  "Too many requests. Please wait " ++ toString (resetAfter / 1000000000) ++ " seconds."

/-- `CommandHandler.createPermissionDeniedMessage` (src/unnamed/part_004:343). -/
def createPermissionDeniedMessage (isGroup : Bool) (command reason : String) : String :=
  if reason == "User not registered" then
    if isGroup then
      "You must be a registered user to use commands in this group. Please contact an admin."
    else
      "You must be a registered user to use commands. Please contact an admin."
  else if reason == "Group not registered" then
    "This group is not registered for bot usage. Please contact an admin."
  else if reason == "Command not allowed for your rank" then
    "The command `!" ++ command ++ "` is not available for your rank."
  else
    "You do not have permission to use the `!" ++ command ++ "` command."

/-- Outcome of `RateLimitService.Check` (src/unnamed/part_017:149): service
not running, allowed (nil error), or a `RateLimitError` carrying
`ResetAfter` and the throttled `Notify` flag. -/
inductive RateCheckOutcome where
  | notRunning
  | allowed
  | limited (resetAfter : Int) (notify : Bool)
  deriving DecidableEq

/-- `RateLimitService.Check` (src/unnamed/part_017:149-171): run the limiter
check; on allow clear the notification record; on deny consult
`ShouldNotify` and return the rate-limit error. -/
def rateServiceCheck (running : Bool) (l : Limiter) (n : Notifier) (now : Int)
    (sender : String) : RateCheckOutcome × Limiter × Notifier :=
  if !running then (.notRunning, l, n)
  else
    let res := l.Check now sender
    if res.1.allowed then
      (.allowed, res.2, n.ClearNotification sender)
    else
      let sn := n.ShouldNotify now sender
      (.limited res.1.resetAfter sn.1, res.2, sn.2)

/-- `CommandHandler.checkPermission` (src/unnamed/part_004:177-210): build
the (userID, groupID) pair from the message, call the auth service through
its interface; an error or a denial yields `false` (a denial additionally
sends the denied reaction and the reason-specific message). -/
def checkPermission (authCheck : String → String → String → Except AuthErr PermissionResult)
    (msg : Msg) (command : String) : Bool × List DispatchEvent :=
  let userID := msg.sender
  let groupID := if msg.isGroup then msg.groupID else ""
  match authCheck userID groupID command with
  | .error _ => (false, [.permissionChecked userID groupID command])
  | .ok r =>
      if !r.allowed then
        (false,
          [.permissionChecked userID groupID command,
           .reactionSent ("🚫"),
           .textSent (createPermissionDeniedMessage msg.isGroup command r.reason)])
      else
        (true, [.permissionChecked userID groupID command])

/-- `CommandHandler.executeCommand` (src/unnamed/part_004:280-315): resolve
the command in the registry map (an unknown name is an error with no
feedback), invoke the handler, then send the success or failure reaction.
`handlerOk` abstracts the external `Command.Handle` implementations. -/
def executeCommand (commands : List String) (handlerOk : String → Msg → Bool)
    (msg : Msg) (command : String) : List DispatchEvent :=
  if !(commands.contains command) then []
  else if handlerOk command msg then
    [.handlerInvoked command, .reactionSent ("✅")]
  else
    [.handlerInvoked command, .reactionSent ("❌")]

/-- `CommandHandler.processCommand` (src/unnamed/part_004:212-241): rate
check, then admission, then execution, releasing the slot afterwards. The
fresh 30-second context of `HandleEvent` is not yet done, so the semaphore
`select` never takes the `ctx.Done()` branch here. -/
def processCommand (running : Bool) (maxConcurrent : Nat) (commands : List String)
    (handlerOk : String → Msg → Bool) (now : Int) (st : HandlerState) (msg : Msg)
    (command : String) : HandlerState × List DispatchEvent :=
  let rc := rateServiceCheck running st.limiter st.notifier now msg.sender
  match rc.1 with
  | .notRunning =>
      (⟨rc.2.1, rc.2.2, st.held⟩, [.rateChecked msg.sender])
  | .limited resetAfter notify =>
      (⟨rc.2.1, rc.2.2, st.held⟩,
        [.rateChecked msg.sender, .reactionSent ("⚠️")] ++
          (if notify then [.textSent (rateWaitMsg resetAfter)] else []))
  | .allowed =>
      let acq := acquireSemaphore st.held maxConcurrent false
      match acq.1 with
      | .acquired =>
          (⟨rc.2.1, rc.2.2, releaseSemaphore acq.2⟩,
            [.rateChecked msg.sender, .semaphoreAcquired] ++
              executeCommand commands handlerOk msg command ++ [.semaphoreReleased])
      | _ =>
          (⟨rc.2.1, rc.2.2, acq.2⟩,
            [.rateChecked msg.sender, .reactionSent ("⚠️"),
             .textSent concurrentLimitMsg])

/-- `CommandHandler.HandleEvent` (src/unnamed/part_004:134-155): extract the
command (which rewrites the message text to the argument string), gate on
the permission check, then process. A non-command returns silently with no
state change and no feedback. -/
def HandleEvent (authCheck : String → String → String → Except AuthErr PermissionResult)
    (running : Bool) (maxConcurrent : Nat) (commands : List String)
    (handlerOk : String → Msg → Bool) (now : Int) (st : HandlerState) (msg : Msg) :
    HandlerState × List DispatchEvent :=
  match extractCommand msg.text with
  | none => (st, [])
  | some (command, args) =>
      let msg2 : Msg :=
        ⟨args, msg.sender, msg.isGroup, msg.groupID, msg.recipient, msg.messageID⟩
      let pc := checkPermission authCheck msg2 command
      if pc.1 then
        let out := processCommand running maxConcurrent commands handlerOk now st msg2 command
        (out.1, pc.2 ++ out.2)
      else
        (st, pc.2)

theorem fieldsAux_all_space (l : List Char) (h : ∀ c ∈ l, isGoSpace c = true) :
    fieldsAux l [] = [] := by
  induction l with
  | nil => rfl
  | cons c rest ih =>
      have hc := h c (List.mem_cons_self c rest)
      have htail := ih (fun x hx => h x (List.mem_cons_of_mem c hx))
      simp [fieldsAux, hc, htail]

theorem HandleEvent_head_permissionChecked
    (authCheck : String → String → String → Except AuthErr PermissionResult)
    (running : Bool) (maxConcurrent : Nat) (commands : List String)
    (handlerOk : String → Msg → Bool) (now : Int) (st : HandlerState) (msg : Msg) :
    (HandleEvent authCheck running maxConcurrent commands handlerOk now st msg).2 = [] ∨
    ∃ u g c tail,
      (HandleEvent authCheck running maxConcurrent commands handlerOk now st msg).2 =
        DispatchEvent.permissionChecked u g c :: tail := by
  rcases hext : extractCommand msg.text with _ | ⟨command, args⟩
  · left
    simp [HandleEvent, hext]
  · right
    simp only [HandleEvent, hext]
    rcases hauth : authCheck msg.sender (if msg.isGroup then msg.groupID else "") command
      with e | r
    · exact ⟨msg.sender, if msg.isGroup then msg.groupID else "", command, [],
        by simp [checkPermission, hauth]⟩
    · by_cases hal : r.allowed
      · refine ⟨msg.sender, if msg.isGroup then msg.groupID else "", command,
          (processCommand running maxConcurrent commands handlerOk now st
            ⟨args, msg.sender, msg.isGroup, msg.groupID, msg.recipient, msg.messageID⟩
            command).2, ?_⟩
        simp [checkPermission, hauth, hal]
      · refine ⟨msg.sender, if msg.isGroup then msg.groupID else "", command,
          [.reactionSent ("🚫"),
           .textSent (createPermissionDeniedMessage msg.isGroup command r.reason)], ?_⟩
        simp [checkPermission, hauth, hal]

theorem rate_and_admission_after_permission (events : List DispatchEvent)
    (h : events = [] ∨
      ∃ u g c tail, events = DispatchEvent.permissionChecked u g c :: tail) :
    (∀ s i, events.get? i = some (.rateChecked s) →
      ∃ j, j < i ∧ ∃ u g c, events.get? j = some (.permissionChecked u g c)) ∧
    (∀ i, events.get? i = some .semaphoreAcquired →
      ∃ j, j < i ∧ ∃ u g c, events.get? j = some (.permissionChecked u g c)) := by
  rcases h with h | ⟨u, g, c, tail, h⟩
  · subst h
    constructor
    · intro s i hi; simp at hi
    · intro i hi; simp at hi
  · subst h
    constructor
    · intro s i hi
      cases i with
      | zero => simp at hi
      | succ k => exact ⟨0, Nat.succ_pos k, u, g, c, rfl⟩
    · intro i hi
      cases i with
      | zero => simp at hi
      | succ k => exact ⟨0, Nat.succ_pos k, u, g, c, rfl⟩

/-- C3. When the permission check denies a command, the dispatcher stops
after sending the denial feedback: the state (limiter windows, notifier
records, held slots) is exactly the input state, no command handler is
invoked, and the rate limiter is never called; and on every dispatch of any
message, a rate check or a semaphore acquisition can only appear strictly
after the permission check in the action trace. -/
theorem dispatcher_denied_skips_rate_and_handler
    (authCheck : String → String → String → Except AuthErr PermissionResult)
    (running : Bool) (maxConcurrent : Nat) (commands : List String)
    (handlerOk : String → Msg → Bool) (now : Int) (st : HandlerState) (msg : Msg)
    (command args : String) (r : PermissionResult)
    (hext : extractCommand msg.text = some (command, args))
    (hauth : authCheck msg.sender (if msg.isGroup then msg.groupID else "") command = .ok r)
    (hden : r.allowed = false) :
    (HandleEvent authCheck running maxConcurrent commands handlerOk now st msg =
      (st,
        [.permissionChecked msg.sender (if msg.isGroup then msg.groupID else "") command,
         .reactionSent ("🚫"),
         .textSent (createPermissionDeniedMessage msg.isGroup command r.reason)])) ∧
    (∀ c, DispatchEvent.handlerInvoked c ∉
      (HandleEvent authCheck running maxConcurrent commands handlerOk now st msg).2) ∧
    (∀ s, DispatchEvent.rateChecked s ∉
      (HandleEvent authCheck running maxConcurrent commands handlerOk now st msg).2) ∧
    (∀ (st' : HandlerState) (msg' : Msg),
      (∀ s i,
        (HandleEvent authCheck running maxConcurrent commands handlerOk now st' msg').2.get? i =
          some (.rateChecked s) →
        ∃ j, j < i ∧ ∃ u g c,
          (HandleEvent authCheck running maxConcurrent commands handlerOk now st' msg').2.get? j =
            some (.permissionChecked u g c)) ∧
      (∀ i,
        (HandleEvent authCheck running maxConcurrent commands handlerOk now st' msg').2.get? i =
          some .semaphoreAcquired →
        ∃ j, j < i ∧ ∃ u g c,
          (HandleEvent authCheck running maxConcurrent commands handlerOk now st' msg').2.get? j =
            some (.permissionChecked u g c))) := by
  have hrun : HandleEvent authCheck running maxConcurrent commands handlerOk now st msg =
      (st,
        [.permissionChecked msg.sender (if msg.isGroup then msg.groupID else "") command,
         .reactionSent ("🚫"),
         .textSent (createPermissionDeniedMessage msg.isGroup command r.reason)]) := by
    simp [HandleEvent, hext, checkPermission, hauth, hden]
  refine ⟨hrun, ?_, ?_, ?_⟩
  · intro c
    rw [hrun]
    simp
  · intro s
    rw [hrun]
    simp
  · intro st' msg'
    exact rate_and_admission_after_permission _
      (HandleEvent_head_permissionChecked authCheck running maxConcurrent commands
        handlerOk now st' msg')

/-- Concrete permission delegate for dispatcher witnesses: the unified
service over `wildcardDB` (user `alice`, no registered groups). -/
def authW : String → String → String → Except AuthErr PermissionResult :=
  fun u g c => UnifiedCheckPermission false wildcardDB noAdmin u g c

/-- Concrete dispatcher state for witnesses. -/
def stW : HandlerState :=
  ⟨Limiter.mk 5 60 (fun _ => []), Notifier.mk 100 (fun _ => none), 0⟩

/-- `alice` sending `!latex x=1` in the unregistered group `G1`. -/
def msgW : Msg := ⟨"!latex x=1", "alice", true, "G1", "G1", "m1"⟩

/-- Witness for C3: dispatching `!latex x=1` from `alice` in the
unregistered group `G1` produces only the permission-denied feedback and
leaves the state untouched. -/
theorem dispatcher_denied_skips_rate_and_handler_witness :
    HandleEvent authW true 2 ["help", "latex"] (fun _ _ => true) 0 stW msgW =
      (stW,
        [.permissionChecked "alice" "G1" "latex",
         .reactionSent ("🚫"),
         .textSent (createPermissionDeniedMessage true "latex" "Group not registered")]) :=
  (dispatcher_denied_skips_rate_and_handler authW true 2 ["help", "latex"]
    (fun _ _ => true) 0 stW msgW "latex" "x=1" ⟨false, "Group not registered", "", false⟩
    (by decide) (by decide) rfl).1

/-- C10. A message whose text is exactly the `!` prefix, or the prefix
followed only by white space, is not a command: `extractCommand` answers
`none` and the dispatcher returns with the state unchanged and an empty
action trace — no handler invocation, no rate or admission consumption, no
reaction and no text. -/
theorem bare_prefix_not_a_command
    (authCheck : String → String → String → Except AuthErr PermissionResult)
    (running : Bool) (maxConcurrent : Nat) (commands : List String)
    (handlerOk : String → Msg → Bool) (now : Int) (st : HandlerState) (msg : Msg)
    (afterPrefix : List Char)
    (hpre : msg.text.data = '!' :: afterPrefix)
    (hws : ∀ c ∈ afterPrefix, isGoSpace c = true) :
    extractCommand msg.text = none ∧
    HandleEvent authCheck running maxConcurrent commands handlerOk now st msg = (st, []) := by
  have hfields : fieldsAux afterPrefix [] = [] := fieldsAux_all_space _ hws
  have hext : extractCommand msg.text = none := by
    simp [extractCommand, hpre, hfields]
  exact ⟨hext, by simp [HandleEvent, hext]⟩

/-- Witness for C10: the message `"! "` (prefix followed by a space) from
`alice` parses as a non-command and dispatches to nothing. -/
theorem bare_prefix_not_a_command_witness :
    extractCommand (Msg.text ⟨"! ", "alice", false, "", "alice", "m2"⟩) = none ∧
    HandleEvent authW true 2 ["help", "latex"] (fun _ _ => true) 0 stW
      ⟨"! ", "alice", false, "", "alice", "m2"⟩ = (stW, []) :=
  bare_prefix_not_a_command authW true 2 ["help", "latex"] (fun _ _ => true) 0 stW
    ⟨"! ", "alice", false, "", "alice", "m2"⟩ [' '] (by decide) (by decide)

end BoTeX
